import Mathlib

/-!
Verification development for the `accounts` ledger repository.

The definitions below are shallow embeddings of the Rust sources:
  * `src/src/money.rs`        — `Money` (a `rust_decimal::Decimal` wrapper)
  * `src/src/entry/journal.rs`— `JournalAmount`, `JournalLine`, `JournalLines`
  * `src/src/bank_txs/mod.rs` — `BankTx`, `BankTxs` (parsing, matching, generation)
  * `src/src/bank_txs/rec_rules.rs` — `RecRule`, `RecRules`, `GenEntry`

Rust machine details are modelled as follows: `Decimal` values are exact decimal
fractions compared by value, so `Money` is embedded as the exact rational the
decimal denotes; fallible Rust functions returning `anyhow::Result` become
`Except String`; `Vec` becomes `List`; the key/value maps (`HashMap`,
`serde_json::Map`) become association lists with insert-overwrites semantics
(iteration order of `HashMap` is unspecified in Rust; none of the proved
properties depends on it).  The external `rule` crate (predicate and value
expressions) is opaque to this repository, so a parsed predicate is embedded as
its evaluation function `BankTx → Except String Bool` and a parsed value
expression as `BankTx → Except String String`.

String helpers are re-implemented structurally over character lists (mirroring
`str::split`, `str::trim`, `str::replace` of Rust) so that all definitions
evaluate inside the kernel.
-/

namespace Accounts

/-! ## String helpers (Rust `str` operations, structural re-implementations) -/

/-- Replace every non-overlapping occurrence of `pat` (left to right) by `rep`,
as Rust `str::replace`.  The fuel is the length of the scanned list; each step
consumes at least one character, so `l.length` fuel is always enough. -/
def replaceChars (pat rep : List Char) : Nat → List Char → List Char
  | 0, l => l
  | _ + 1, [] => []
  | fuel + 1, c :: rest =>
    if pat ≠ [] ∧ pat.isPrefixOf (c :: rest) then
      rep ++ replaceChars pat rep fuel ((c :: rest).drop pat.length)
    else
      c :: replaceChars pat rep fuel rest

/-- Rust `str::replace`. -/
def strReplace (s pat rep : String) : String :=
  String.mk (replaceChars pat.data rep.data s.data.length s.data)

/-- Rust `str::split(sep)` for a one-character separator: always returns at
least one (possibly empty) field. -/
def splitCharsOn (sep : Char) : List Char → List (List Char)
  | [] => [[]]
  | c :: rest =>
    let r := splitCharsOn sep rest
    if c = sep then [] :: r
    else
      match r with
      | [] => [[c]]
      | h :: t => (c :: h) :: t

/-- Rust `str::split(sep)` on strings. -/
def strSplitOn (sep : Char) (s : String) : List String :=
  (splitCharsOn sep s.data).map String.mk

/-- Rust `str::trim`: strip leading and trailing whitespace. -/
def strTrim (s : String) : String :=
  String.mk (((s.data.dropWhile Char.isWhitespace).reverse.dropWhile
    Char.isWhitespace).reverse)

/-- Parse a non-empty all-digit character list as a natural number. -/
def digitsToNat (l : List Char) : Option Nat :=
  if l ≠ [] ∧ l.all Char.isDigit then
    some (l.foldl (fun n c => n * 10 + (c.toNat - 48)) 0)
  else none

/-- `true` iff `pat` occurs as a substring of `s` (used to state what an error
message "mentions"). -/
def subOccursIn (pat : List Char) : List Char → Bool
  | [] => pat.isPrefixOf ([] : List Char)
  | c :: rest => pat.isPrefixOf (c :: rest) || subOccursIn pat rest

/-- Substring test on strings. -/
def strContainsSub (s pat : String) : Bool :=
  subOccursIn pat.data s.data

/-- The single-quote character, written via its code point. -/
def sq : String := String.singleton (Char.ofNat 39)

/-! ## Money (src/src/money.rs)

`Money(pub Decimal)` with value-based equality/ordering: embedded as the exact
rational value of the decimal.  `Decimal` add/sub/neg are exact on these
values; the `rescale to at least 2 dp` step of `TryFrom<f64>` changes only the
printed form, never the value. -/

/-- Money values (exact decimal fractions, compared by value as
`rust_decimal::Decimal` does). -/
abbrev Money := Rat

/-- `impl Neg for Money` (src/src/money.rs:95-104): negation, with the
source's explicit "leave default (zero) alone" case, which agrees with plain
rational negation. -/
def Money.neg (m : Money) : Money :=
  if m ≠ 0 then -m else m

/-- `impl FromStr for Decimal` essentials: optional sign, digits with at most
one decimal point, at least one digit; everything else is a parse error. -/
def parseDecimal (t : String) : Except String Money :=
  let failMsg : Except String Money := .error ("Invalid decimal: " ++ t)
  let signedMag : Int × List Char :=
    match t.data with
    | '-' :: rest => (-1, rest)
    | '+' :: rest => (1, rest)
    | l => (1, l)
  match splitCharsOn '.' signedMag.2 with
  | [ip] =>
    match digitsToNat ip with
    | some n => .ok ((signedMag.1 : Rat) * (n : Rat))
    | none => failMsg
  | [ip, fp] =>
    if ip.isEmpty then
      match digitsToNat fp with
      | some f => .ok ((signedMag.1 : Rat) * ((f : Rat) / (10 ^ fp.length)))
      | none => failMsg
    else
      match digitsToNat ip, digitsToNat fp with
      | some n, some f =>
        .ok ((signedMag.1 : Rat) * ((n : Rat) + (f : Rat) / (10 ^ fp.length)))
      | _, _ => failMsg
  | _ => failMsg

/-- `impl FromStr for Money` (src/src/money.rs:59-65): strip `,` and `$`,
then parse as a decimal. -/
def Money.from_str (s : String) : Except String Money :=
  parseDecimal (strReplace (strReplace s "," "") "$" "")

/-! ## JournalAmount (src/src/entry/journal.rs) -/

/-- `enum JournalAmount { Debit(Money), Credit(Money) }`. -/
inductive JournalAmount where
  | Debit (m : Money)
  | Credit (m : Money)
deriving DecidableEq, Repr

/-- `JournalAmount::invert` (journal.rs:61-66). -/
def JournalAmount.invert : JournalAmount → JournalAmount
  | .Debit m => .Credit m
  | .Credit m => .Debit m

/-- `JournalAmount::abs_amount` (journal.rs:68-73). -/
def JournalAmount.abs_amount : JournalAmount → Money
  | .Debit m => m
  | .Credit m => m

/-- `JournalAmount::is_debit` (journal.rs:49-54). -/
def JournalAmount.is_debit : JournalAmount → Bool
  | .Debit _ => true
  | .Credit _ => false

/-- `impl AddAssign for JournalAmount` (journal.rs:108-126): treat credit as
negative, add, re-tag by the sign of the sum.  The source mutates `self`; the
embedding returns the new value. -/
def JournalAmount.add_assign (self other : JournalAmount) : JournalAmount :=
  let relative_self : Money :=
    match self with
    | .Debit m => m
    | .Credit m => Money.neg m
  let relative_other : Money :=
    match other with
    | .Debit m => m
    | .Credit m => Money.neg m
  let sum := relative_self + relative_other
  if sum ≥ 0 then .Debit sum else .Credit (Money.neg sum)

/-- Reference model from the spec for C8: the signed value of an amount,
"Credit as negative, Debit as positive". -/
def signedValueSpec : JournalAmount → Money
  | .Debit m => m
  | .Credit m => -m

theorem money_neg_eq_neg (m : Money) : Money.neg m = -m := by
  unfold Money.neg
  by_cases h : m = 0 <;> simp [h]

theorem signed_add_assign (a b : JournalAmount) :
    a.add_assign b =
      (if 0 ≤ signedValueSpec a + signedValueSpec b
       then JournalAmount.Debit (signedValueSpec a + signedValueSpec b)
       else JournalAmount.Credit (-(signedValueSpec a + signedValueSpec b))) := by
  cases a <;> cases b <;>
    simp [JournalAmount.add_assign, signedValueSpec, money_neg_eq_neg, GE.ge]

/-- C8: `JournalAmount` accumulation equals signed-value arithmetic (Credit
negative, Debit positive, result re-tagged by the sign of the sum: `≥ 0` gives
`Debit`, otherwise `Credit` of the negated sum), it satisfies the two concrete
examples `Debit(10) + Credit(3) = Debit(7)` and `Credit(5) + Debit(5) =
Debit(0)`, and it is commutative. -/
theorem journalAmount_accumulation_signed_commutative :
    (∀ a b : JournalAmount,
        signedValueSpec (a.add_assign b) = signedValueSpec a + signedValueSpec b
      ∧ a.add_assign b =
          (if 0 ≤ signedValueSpec a + signedValueSpec b
           then JournalAmount.Debit (signedValueSpec a + signedValueSpec b)
           else JournalAmount.Credit (-(signedValueSpec a + signedValueSpec b)))
      ∧ a.add_assign b = b.add_assign a)
    ∧ (JournalAmount.Debit 10).add_assign (JournalAmount.Credit 3) =
        JournalAmount.Debit 7
    ∧ (JournalAmount.Credit 5).add_assign (JournalAmount.Debit 5) =
        JournalAmount.Debit 0 := by
  refine ⟨fun a b => ⟨?_, signed_add_assign a b, ?_⟩, ?_, ?_⟩
  · rw [signed_add_assign]
    split <;> rename_i h
    · simp [signedValueSpec]
    · simp [signedValueSpec]
  · rw [signed_add_assign, signed_add_assign, add_comm]
  · rw [signed_add_assign]
    norm_num [signedValueSpec]
  · rw [signed_add_assign]
    norm_num [signedValueSpec]

/-! ## Journal lines (src/src/entry/journal.rs) -/

/-- `pub type JournalAccount = String`. -/
abbrev JournalAccount := String

/-- `struct JournalLine(pub JournalAccount, pub JournalAmount)`. -/
structure JournalLine where
  account : JournalAccount
  amount : JournalAmount
deriving DecidableEq, Repr

/-- The debit/credit totals fold of `JournalLines::new` (journal.rs:155-164). -/
def totalsFold (lines : List JournalLine) : Money × Money :=
  lines.foldl
    (fun td l =>
      match l.amount with
      | .Debit m => (td.1 + m, td.2)
      | .Credit m => (td.1, td.2 + m))
    (0, 0)

/-- The `lines.sort_by(...)` call of `JournalLines::new` (journal.rs:174-182):
`Vec::sort_by` is stable and the comparator only orders debits before credits,
so the sort is exactly the stable partition debits-then-credits. -/
def sortDebitsFirst (lines : List JournalLine) : List JournalLine :=
  lines.filter (fun l => l.amount.is_debit)
    ++ lines.filter (fun l => !l.amount.is_debit)

/-- `JournalLines::new` (journal.rs:148-184): reject empty line lists; balance
against the optional balance account (appending one line of the difference) or
reject unbalanced lines; sort debits first. -/
def JournalLines.new (lines : List JournalLine)
    (balance_account : Option JournalAccount) :
    Except String (List JournalLine) :=
  if lines.isEmpty then .error "Journal lines cannot be empty"
  else
    let totals := totalsFold lines
    match balance_account with
    | some account =>
      let lines :=
        if totals.1 > totals.2 then
          lines ++ [⟨account, .Credit (totals.1 - totals.2)⟩]
        else if totals.2 > totals.1 then
          lines ++ [⟨account, .Debit (totals.2 - totals.1)⟩]
        else lines
      .ok (sortDebitsFirst lines)
    | none =>
      if totals.1 ≠ totals.2 then
        .error "Journal credits and debits are not equal and no balance account given"
      else .ok (sortDebitsFirst lines)

/-- Sum of the `Debit` magnitudes of a line list (the left component of the
totals fold, stated directly as a sum). -/
def debitTotal (lines : List JournalLine) : Money :=
  (lines.map (fun l =>
    match l.amount with
    | .Debit m => m
    | .Credit _ => 0)).sum

/-- Sum of the `Credit` magnitudes of a line list. -/
def creditTotal (lines : List JournalLine) : Money :=
  (lines.map (fun l =>
    match l.amount with
    | .Debit _ => 0
    | .Credit m => m)).sum

theorem totalsFold_from (lines : List JournalLine) :
    ∀ init : Money × Money,
      lines.foldl
        (fun td l =>
          match l.amount with
          | .Debit m => (td.1 + m, td.2)
          | .Credit m => (td.1, td.2 + m))
        init = (init.1 + debitTotal lines, init.2 + creditTotal lines) := by
  induction lines with
  | nil => intro init; simp [debitTotal, creditTotal]
  | cons l rest ih =>
    intro init
    cases hl : l.amount with
    | Debit m =>
      simp only [List.foldl_cons, hl, ih, debitTotal, creditTotal, List.map_cons,
        List.sum_cons, Prod.mk.injEq]
      constructor <;> ring
    | Credit m =>
      simp only [List.foldl_cons, hl, ih, debitTotal, creditTotal, List.map_cons,
        List.sum_cons, Prod.mk.injEq]
      constructor <;> ring

theorem totalsFold_eq (lines : List JournalLine) :
    totalsFold lines = (debitTotal lines, creditTotal lines) := by
  simpa using totalsFold_from lines (0, 0)

theorem debitTotal_append (l₁ l₂ : List JournalLine) :
    debitTotal (l₁ ++ l₂) = debitTotal l₁ + debitTotal l₂ := by
  simp [debitTotal]

theorem creditTotal_append (l₁ l₂ : List JournalLine) :
    creditTotal (l₁ ++ l₂) = creditTotal l₁ + creditTotal l₂ := by
  simp [creditTotal]

theorem debitTotal_cons (x : JournalLine) (xs : List JournalLine) :
    debitTotal (x :: xs) =
      (match x.amount with
       | .Debit m => m
       | .Credit _ => 0) + debitTotal xs := by
  simp [debitTotal]

theorem creditTotal_cons (x : JournalLine) (xs : List JournalLine) :
    creditTotal (x :: xs) =
      (match x.amount with
       | .Debit _ => 0
       | .Credit m => m) + creditTotal xs := by
  simp [creditTotal]

theorem is_debit_Debit (m : Money) : (JournalAmount.Debit m).is_debit = true := rfl

theorem is_debit_Credit (m : Money) : (JournalAmount.Credit m).is_debit = false := rfl

theorem debitTotal_filter_debits (l : List JournalLine) :
    debitTotal (l.filter (fun x => x.amount.is_debit)) = debitTotal l := by
  induction l with
  | nil => rfl
  | cons x rest ih =>
    cases hx : x.amount with
    | Debit m =>
      simp [List.filter_cons, hx, is_debit_Debit, is_debit_Credit, debitTotal_cons, ih]
    | Credit m =>
      simp [List.filter_cons, hx, is_debit_Debit, is_debit_Credit, debitTotal_cons, ih]

theorem debitTotal_filter_credits (l : List JournalLine) :
    debitTotal (l.filter (fun x => !x.amount.is_debit)) = 0 := by
  induction l with
  | nil => rfl
  | cons x rest ih =>
    cases hx : x.amount with
    | Debit m =>
      simp [List.filter_cons, hx, is_debit_Debit, is_debit_Credit, debitTotal_cons, ih]
    | Credit m =>
      simp [List.filter_cons, hx, is_debit_Debit, is_debit_Credit, debitTotal_cons, ih]

theorem creditTotal_filter_debits (l : List JournalLine) :
    creditTotal (l.filter (fun x => x.amount.is_debit)) = 0 := by
  induction l with
  | nil => rfl
  | cons x rest ih =>
    cases hx : x.amount with
    | Debit m =>
      simp [List.filter_cons, hx, is_debit_Debit, is_debit_Credit, creditTotal_cons, ih]
    | Credit m =>
      simp [List.filter_cons, hx, is_debit_Debit, is_debit_Credit, creditTotal_cons, ih]

theorem creditTotal_filter_credits (l : List JournalLine) :
    creditTotal (l.filter (fun x => !x.amount.is_debit)) = creditTotal l := by
  induction l with
  | nil => rfl
  | cons x rest ih =>
    cases hx : x.amount with
    | Debit m =>
      simp [List.filter_cons, hx, is_debit_Debit, is_debit_Credit, creditTotal_cons, ih]
    | Credit m =>
      simp [List.filter_cons, hx, is_debit_Debit, is_debit_Credit, creditTotal_cons, ih]

theorem debitTotal_sortDebitsFirst (l : List JournalLine) :
    debitTotal (sortDebitsFirst l) = debitTotal l := by
  rw [sortDebitsFirst, debitTotal_append, debitTotal_filter_debits,
    debitTotal_filter_credits, add_zero]

theorem creditTotal_sortDebitsFirst (l : List JournalLine) :
    creditTotal (sortDebitsFirst l) = creditTotal l := by
  rw [sortDebitsFirst, creditTotal_append, creditTotal_filter_debits,
    creditTotal_filter_credits, zero_add]

/-- C1: every line set accepted by `JournalLines::new` is balanced (its debit
magnitudes and credit magnitudes have equal sums); with a balance account a
single balancing line of the difference is appended, and nothing is appended
when the totals already agree. -/
theorem journalLines_new_balance_invariant
    (lines : List JournalLine) (balance_account : Option JournalAccount)
    (res : List JournalLine)
    (h : JournalLines.new lines balance_account = .ok res) :
    debitTotal res = creditTotal res
    ∧ (∀ a, balance_account = some a →
        (debitTotal lines = creditTotal lines → res = sortDebitsFirst lines)
      ∧ (debitTotal lines > creditTotal lines →
          res = sortDebitsFirst (lines ++
            [⟨a, JournalAmount.Credit (debitTotal lines - creditTotal lines)⟩]))
      ∧ (creditTotal lines > debitTotal lines →
          res = sortDebitsFirst (lines ++
            [⟨a, JournalAmount.Debit (creditTotal lines - debitTotal lines)⟩]))) := by
  unfold JournalLines.new at h
  simp only [totalsFold_eq] at h
  by_cases hemp : lines.isEmpty
  · simp [hemp] at h
  simp only [hemp, if_false, Bool.false_eq_true] at h
  cases balance_account with
  | none =>
    by_cases hne : debitTotal lines ≠ creditTotal lines
    · simp [hne] at h
    · push_neg at hne
      simp only [hne, ne_eq, not_true_eq_false, if_false, Except.ok.injEq,
        reduceIte] at h
      subst h
      refine ⟨?_, ?_⟩
      · rw [debitTotal_sortDebitsFirst, creditTotal_sortDebitsFirst, hne]
      · intro a ha; cases ha
  | some a =>
    simp only [Except.ok.injEq] at h
    rcases lt_trichotomy (debitTotal lines) (creditTotal lines) with hlt | heq | hgt
    · rw [if_neg (asymm hlt), if_pos hlt] at h
      subst h
      refine ⟨?_, ?_⟩
      · rw [debitTotal_sortDebitsFirst, creditTotal_sortDebitsFirst,
          debitTotal_append, creditTotal_append]
        simp [debitTotal, creditTotal]
      · intro b hb
        injection hb with hb
        subst hb
        exact ⟨fun hEq => absurd hEq (ne_of_lt hlt),
          fun hgt2 => absurd hgt2 (asymm hlt),
          fun _ => rfl⟩
    · rw [if_neg (by rw [heq]; exact lt_irrefl _),
        if_neg (by rw [heq]; exact lt_irrefl _)] at h
      subst h
      refine ⟨?_, ?_⟩
      · rw [debitTotal_sortDebitsFirst, creditTotal_sortDebitsFirst, heq]
      · intro b hb
        injection hb with hb
        subst hb
        exact ⟨fun _ => rfl,
          fun hgt2 => absurd hgt2 (by rw [heq]; exact lt_irrefl _),
          fun hlt2 => absurd hlt2 (by rw [heq]; exact lt_irrefl _)⟩
    · rw [if_pos hgt] at h
      subst h
      refine ⟨?_, ?_⟩
      · rw [debitTotal_sortDebitsFirst, creditTotal_sortDebitsFirst,
          debitTotal_append, creditTotal_append]
        simp [debitTotal, creditTotal]
      · intro b hb
        injection hb with hb
        subst hb
        exact ⟨fun hEq => absurd hEq (ne_of_gt hgt),
          fun _ => rfl,
          fun hlt2 => absurd hlt2 (asymm hgt)⟩

/-- Closed instance of C1: a single debit line balanced against an account
yields the balanced, debits-first line set. -/
theorem journalLines_new_balance_invariant_witness :
    JournalLines.new [⟨"Bank", JournalAmount.Debit 5⟩] (some "Owner Contributions") =
      .ok [⟨"Bank", JournalAmount.Debit 5⟩,
           ⟨"Owner Contributions", JournalAmount.Credit 5⟩]
    ∧ debitTotal [⟨"Bank", JournalAmount.Debit 5⟩,
           ⟨"Owner Contributions", JournalAmount.Credit 5⟩] =
      creditTotal [⟨"Bank", JournalAmount.Debit 5⟩,
           ⟨"Owner Contributions", JournalAmount.Credit 5⟩] := by
  have hok : JournalLines.new [⟨"Bank", JournalAmount.Debit 5⟩]
      (some "Owner Contributions") =
      .ok [⟨"Bank", JournalAmount.Debit 5⟩,
           ⟨"Owner Contributions", JournalAmount.Credit 5⟩] := by
    norm_num [JournalLines.new, totalsFold, sortDebitsFirst, JournalAmount.is_debit,
      List.filter]
  exact ⟨hok, (journalLines_new_balance_invariant _ _ _ hok).1⟩

/-! ## Dates (chrono `NaiveDate`, as used by the sources) -/

/-- A calendar date (chrono `NaiveDate`); negative years do not occur in this
codebase and are out of scope of the embedding. -/
structure Date where
  year : Nat
  month : Nat
  day : Nat
deriving DecidableEq, Repr

def isLeapYear (y : Nat) : Bool :=
  y % 4 == 0 && (y % 100 != 0 || y % 400 == 0)

def daysInMonth (y : Nat) (m : Nat) : Nat :=
  if m = 2 then (if isLeapYear y then 29 else 28)
  else if m = 4 ∨ m = 6 ∨ m = 9 ∨ m = 11 then 30
  else 31

/-- chrono `impl FromStr for NaiveDate`: the ISO `%Y-%m-%d` format with
validity checking; chrono's parse items tolerate surrounding whitespace. -/
def parseIsoDate (s : String) : Except String Date :=
  match (splitCharsOn '-' (strTrim s).data).map digitsToNat with
  | [some y, some m, some d] =>
    if 1 ≤ m ∧ m ≤ 12 ∧ 1 ≤ d ∧ d ≤ daysInMonth y m then .ok ⟨y, m, d⟩
    else .error ("invalid date: " ++ s)
  | _ => .error ("invalid date: " ++ s)

/-- Decimal digits of a natural number (structural, fuelled by the number
itself so that it evaluates in the kernel). -/
def natToChars : Nat → Nat → List Char
  | 0, _ => []
  | fuel + 1, n =>
    if n < 10 then [Char.ofNat (48 + n)]
    else natToChars fuel (n / 10) ++ [Char.ofNat (48 + n % 10)]

/-- Rust `Display` of an unsigned integer. -/
def natToStr (n : Nat) : String :=
  String.mk (natToChars (n + 1) n)

/-- Left-pad with zeros to the given width. -/
def padZeros (n width : Nat) : String :=
  let s := natToStr n
  String.mk (List.replicate (width - s.data.length) (Char.ofNat 48)) ++ s

/-- chrono `Display` of a `NaiveDate`: `%04d-%02d-%02d`. -/
def Date.toIso (d : Date) : String :=
  padZeros d.year 4 ++ "-" ++ padZeros d.month 2 ++ "-" ++ padZeros d.day 2

/-- Fractional decimal digits of `rem / den` (fuelled; money denominators are
powers of ten, so the expansion terminates well inside the fuel). -/
def fracDigits : Nat → Nat → Nat → String
  | 0, _, _ => ""
  | fuel + 1, rem, den =>
    if rem = 0 then ""
    else natToStr (rem * 10 / den) ++ fracDigits fuel (rem * 10 % den) den

/-- Rust `f64` `Display` of a money value (shortest decimal form, e.g. `60.5`),
as used when a transaction amount is converted through `f64` for an id. -/
def ratToDecimalString (q : Rat) : String :=
  let sign := if q < 0 then "-" else ""
  let n := q.num.natAbs
  let den := q.den
  if n % den = 0 then sign ++ natToStr (n / den)
  else sign ++ natToStr (n / den) ++ "." ++ fracDigits 40 (n % den) den

/-! ## Bank transactions (src/src/bank_txs/mod.rs) -/

/-- `struct BankTx { date, account, amount, memo }` (mod.rs:25-31). -/
structure BankTx where
  date : Date
  account : JournalAccount
  amount : JournalAmount
  memo : String
deriving DecidableEq, Repr

instance : Inhabited BankTx :=
  ⟨⟨⟨1970, 1, 1⟩, "", JournalAmount.Debit 0, ""⟩⟩

/-- One `parts.next()` step of `BankTx::from_str`, with its `context` error. -/
def nextPart (parts : List String) (i : Nat) (msg : String) :
    Except String String :=
  match parts.get? i with
  | some p => .ok p
  | none => .error msg

/-- `impl FromStr for BankTx` (mod.rs:68-112): split on `|`, parse date,
trim account/memo, parse the debit and credit fields as money and require
exactly one of them to be populated. -/
def BankTx.from_str (s : String) : Except String BankTx := do
  let parts := strSplitOn '|' s
  let p0 ← nextPart parts 0 ("Error getting date from bank tx: " ++ sq ++ s ++ sq)
  let date ← parseIsoDate p0
  let p1 ← nextPart parts 1 ("Error getting account from bank tx: " ++ sq ++ s ++ sq)
  let account := strTrim p1
  let p2 ← nextPart parts 2 ("Error getting debit from bank tx: " ++ sq ++ s ++ sq)
  let debit := Money.from_str (strTrim p2)
  let p3 ← nextPart parts 3 ("Error getting credit from bank tx: " ++ sq ++ s ++ sq)
  let credit := Money.from_str (strTrim p3)
  let p4 ← nextPart parts 4 ("Error getting memo from bank tx: " ++ sq ++ s ++ sq)
  let memo := strTrim p4
  let amount ← match debit, credit with
    | .ok amt, .error _ => pure (JournalAmount.Debit amt)
    | .error _, .ok amt => pure (JournalAmount.Credit amt)
    | .ok _, .ok _ =>
      throw ("Both credit and debit given in bank tx: " ++ sq ++ s ++ sq)
    | .error _, .error _ =>
      throw ("Error parsing bank tx amount: " ++ sq ++ s ++ sq)
  pure { date := date, account := account, amount := amount, memo := memo }

/-- C7 counterexample: a line with both debit and credit populated fails with
the `Both credit and debit given in bank tx` error, whose message does not
mention `amount` — contrary to the claim's final conjunct. -/
theorem bankTx_both_error_counterexample :
    BankTx.from_str "2025-03-06 | X | 1.00 | 2.00 | m" =
      .error ("Both credit and debit given in bank tx: " ++ sq
        ++ "2025-03-06 | X | 1.00 | 2.00 | m" ++ sq)
    ∧ strContainsSub ("Both credit and debit given in bank tx: " ++ sq
        ++ "2025-03-06 | X | 1.00 | 2.00 | m" ++ sq) "amount" = false := by
  exact ⟨rfl, rfl⟩

/-- C7 (amended): parsing fails whenever both the debit and the credit field
parse as money values, and whenever neither does; on a five-field line with a
valid date, the both-populated case fails with the `Both credit and debit
given in bank tx` error (not one mentioning `amount`), and it is the
neither-populated case that fails with the `Error parsing bank tx amount`
error. -/
theorem bankTx_amount_errors_amended
    (s p2 p3 : String)
    (hp2 : (strSplitOn '|' s).get? 2 = some p2)
    (hp3 : (strSplitOn '|' s).get? 3 = some p3) :
    ((Money.from_str (strTrim p2)).isOk = true →
      (Money.from_str (strTrim p3)).isOk = true →
        ∃ e, BankTx.from_str s = .error e)
  ∧ (¬ (Money.from_str (strTrim p2)).isOk = true →
      ¬ (Money.from_str (strTrim p3)).isOk = true →
        ∃ e, BankTx.from_str s = .error e)
  ∧ (∀ p0 p1 p4 rest d,
      strSplitOn '|' s = p0 :: p1 :: p2 :: p3 :: p4 :: rest →
      parseIsoDate p0 = .ok d →
        ((Money.from_str (strTrim p2)).isOk = true →
          (Money.from_str (strTrim p3)).isOk = true →
          BankTx.from_str s =
            .error ("Both credit and debit given in bank tx: " ++ sq ++ s ++ sq))
      ∧ (¬ (Money.from_str (strTrim p2)).isOk = true →
          ¬ (Money.from_str (strTrim p3)).isOk = true →
          BankTx.from_str s =
            .error ("Error parsing bank tx amount: " ++ sq ++ s ++ sq))) := by
  obtain ⟨x0, x1, t, hparts⟩ :
      ∃ x0 x1 t, strSplitOn '|' s = x0 :: x1 :: p2 :: t := by
    cases hP : strSplitOn '|' s with
    | nil => rw [hP] at hp2; cases hp2
    | cons a tl =>
      cases tl with
      | nil => rw [hP] at hp2; cases hp2
      | cons b tl2 =>
        cases tl2 with
        | nil => rw [hP] at hp2; cases hp2
        | cons c tl3 =>
          rw [hP] at hp2
          simp only [List.get?] at hp2
          cases hp2
          exact ⟨a, b, tl3, rfl⟩
  obtain ⟨t2, ht⟩ : ∃ t2, t = p3 :: t2 := by
    rw [hparts] at hp3
    cases t with
    | nil => cases hp3
    | cons c tl =>
      simp only [List.get?] at hp3
      cases hp3
      exact ⟨tl, rfl⟩
  subst ht
  constructor
  · -- both populated: every continuation of the parse ends in an error
    intro hd hc
    unfold BankTx.from_str
    rw [hparts]
    simp only [nextPart, List.get?, bind, Except.bind]
    cases hdate : parseIsoDate x0 with
    | error e => exact ⟨e, rfl⟩
    | ok d =>
      cases hmok : Money.from_str (strTrim p2) with
      | error e => rw [hmok] at hd; cases hd
      | ok amt =>
        cases hcok : Money.from_str (strTrim p3) with
        | error e => rw [hcok] at hc; cases hc
        | ok amt2 =>
          cases t2 with
          | nil => exact ⟨_, rfl⟩
          | cons p4 rest => exact ⟨_, rfl⟩
  constructor
  · -- neither populated: every continuation of the parse ends in an error
    intro hd hc
    unfold BankTx.from_str
    rw [hparts]
    simp only [nextPart, List.get?, bind, Except.bind]
    cases hdate : parseIsoDate x0 with
    | error e => exact ⟨e, rfl⟩
    | ok d =>
      cases hmok : Money.from_str (strTrim p2) with
      | ok amt => rw [hmok] at hd; exact absurd rfl hd
      | error e =>
        cases hcok : Money.from_str (strTrim p3) with
        | ok amt2 => rw [hcok] at hc; exact absurd rfl hc
        | error e2 =>
          cases t2 with
          | nil => exact ⟨_, rfl⟩
          | cons p4 rest => exact ⟨_, rfl⟩
  · intro q0 q1 q4 rest d hsplit hdate
    rw [hparts] at hsplit
    injection hsplit with h0 hsplit
    injection hsplit with h1 hsplit
    injection hsplit with h2 hsplit
    injection hsplit with h3 hsplit
    subst h0
    subst h1
    subst hsplit
    constructor
    · intro hd hc
      unfold BankTx.from_str
      rw [hparts]
      simp only [nextPart, List.get?, bind, Except.bind]
      rw [hdate]
      cases hmok : Money.from_str (strTrim p2) with
      | error e => rw [hmok] at hd; cases hd
      | ok amt =>
        cases hcok : Money.from_str (strTrim p3) with
        | error e => rw [hcok] at hc; cases hc
        | ok amt2 => rfl
    · intro hd hc
      unfold BankTx.from_str
      rw [hparts]
      simp only [nextPart, List.get?, bind, Except.bind]
      rw [hdate]
      cases hmok : Money.from_str (strTrim p2) with
      | ok amt => rw [hmok] at hd; exact absurd rfl hd
      | error e =>
        cases hcok : Money.from_str (strTrim p3) with
        | ok amt2 => rw [hcok] at hc; exact absurd rfl hc
        | error e2 => rfl

/-- Closed instance of C7 (amended), at a both-populated and at a
neither-populated line. -/
theorem bankTx_amount_errors_amended_witness :
    BankTx.from_str "2025-03-06 | X | 1.00 | 2.00 | m" =
      .error ("Both credit and debit given in bank tx: " ++ sq
        ++ "2025-03-06 | X | 1.00 | 2.00 | m" ++ sq)
    ∧ BankTx.from_str "2025-03-06 | X |  |  | m" =
      .error ("Error parsing bank tx amount: " ++ sq
        ++ "2025-03-06 | X |  |  | m" ++ sq)
    ∧ strContainsSub ("Error parsing bank tx amount: " ++ sq
        ++ "2025-03-06 | X |  |  | m" ++ sq) "amount" = true := by
  refine ⟨?_, ?_, rfl⟩
  · exact ((bankTx_amount_errors_amended "2025-03-06 | X | 1.00 | 2.00 | m"
      " 1.00 " " 2.00 " rfl rfl).2.2 "2025-03-06 " " X " " m" []
      ⟨2025, 3, 6⟩ rfl rfl).1 rfl rfl
  · exact ((bankTx_amount_errors_amended "2025-03-06 | X |  |  | m"
      "  " "  " rfl rfl).2.2 "2025-03-06 " " X " " m" []
      ⟨2025, 3, 6⟩ rfl rfl).2 (by intro h; cases h) (by intro h; cases h)

/-! ## JSON documents and association maps

`serde_json::Value` and the key/value maps (`serde_json::Map`,
`std::collections::HashMap`) used by the reconciliation rules.  Maps are
embedded as association lists; `insert` overwrites the value of an existing
key in place and appends new keys, and `extend` folds `insert` (the semantics
of `Map::insert`/`HashMap::insert` and `extend`; `HashMap` iteration order is
unspecified in Rust, and no proved property depends on the order). -/

/-- `serde_json::Value`. -/
inductive Json where
  | null
  | jbool (b : Bool)
  | num (q : Rat)
  | str (s : String)
  | arr (elems : List Json)
  | obj (fields : List (String × Json))
deriving Repr

/-- Map lookup (`Map::get` / `HashMap::get`). -/
def alGet {α : Type} : List (String × α) → String → Option α
  | [], _ => none
  | p :: rest, k => if p.1 == k then some p.2 else alGet rest k

/-- Map insert: overwrite an existing key in place, append a new key. -/
def alInsert {α : Type} : List (String × α) → String → α → List (String × α)
  | [], k, v => [(k, v)]
  | p :: rest, k, v => if p.1 == k then (k, v) :: rest else p :: alInsert rest k v

/-- Map extend: fold `insert` over the additions (later bindings of a name
overwrite earlier ones). -/
def alExtend {α : Type} (l adds : List (String × α)) : List (String × α) :=
  adds.foldl (fun acc p => alInsert acc p.1 p.2) l

/-! ## Reconciliation rules (src/src/bank_txs/rec_rules.rs) -/

/-- A parsed predicate of the external `rule` crate (`Rule`), represented by
its evaluation against a transaction (`Rule::matches`). -/
abbrev RulePred := BankTx → Except String Bool

/-- A parsed value expression of the external `rule` crate (`Arg`),
represented by its evaluation to a string against a transaction (constant
`Arg`s are constant functions). -/
abbrev Arg := BankTx → Except String String

/-- `struct RecRule { rule, values, template }` (rec_rules.rs:26-30). -/
structure RecRule where
  rule : RulePred
  values : List (String × Arg)
  template : List (String × Json)

/-- `struct GenEntry { tx, values, template }` (rec_rules.rs:130-134). -/
structure GenEntry where
  tx : BankTx
  values : List (String × Arg)
  template : List (String × Json)

/-- `GenEntry::new` (rec_rules.rs:186-192). -/
def GenEntry.new (tx : BankTx) : GenEntry :=
  { tx := tx, values := [], template := [] }

/-- `RecRule::apply` (rec_rules.rs:76-93): if the predicate matches, merge the
rule's value bindings and shallow-merge its template fragment into the
accumulated entry; predicate errors become `Error matching rule`. -/
def RecRule.apply (r : RecRule) (ge : GenEntry) : Except String GenEntry :=
  match r.rule ge.tx with
  | .error _ => .error "Error matching rule"
  | .ok true =>
    .ok { ge with
          values := alExtend ge.values r.values,
          template := alExtend ge.template r.template }
  | .ok false => .ok ge

/-- `RecRules` is `Vec<RecRule>` (rec_rules.rs:97). -/
abbrev RecRules := List RecRule

/-- The loop body of `RecRules::apply` (rec_rules.rs:104-112): apply each rule
in order, and return early as soon as the CURRENT RULE's own template is
non-empty (this is the source's test `!rule.template.is_empty()`, checked
whether or not the rule's predicate matched). -/
def recRulesApplyGo : List RecRule → GenEntry → Except String GenEntry
  | [], ge => .ok ge
  | rule :: rest, ge =>
    match rule.apply ge with
    | .error e => .error e
    | .ok ge2 =>
      if !rule.template.isEmpty then .ok ge2
      else recRulesApplyGo rest ge2

/-- `RecRules::apply` (rec_rules.rs:100-115). -/
def RecRules.apply (rules : RecRules) (tx : BankTx) : Except String GenEntry :=
  recRulesApplyGo rules (GenEntry.new tx)

/-- Modelled from the spec: the loop of §4.5, which stops only when "after
merging the accumulated template is non-empty" — i.e. it tests the ACCUMULATED
template, not the current rule's own fragment.  Used to exhibit the divergence
of the source's loop (claim C2). -/
def recRulesApplySpecGo : List RecRule → GenEntry → Except String GenEntry
  | [], ge => .ok ge
  | rule :: rest, ge =>
    match rule.apply ge with
    | .error e => .error e
    | .ok ge2 =>
      if !ge2.template.isEmpty then .ok ge2
      else recRulesApplySpecGo rest ge2

/-- Modelled from the spec: rule-set application per §4.5. -/
def RecRules.applyPerSpec (rules : RecRules) (tx : BankTx) :
    Except String GenEntry :=
  recRulesApplySpecGo rules (GenEntry.new tx)

/-! ## Generating entries (src/src/bank_txs/rec_rules.rs:185-330) -/

/-- The per-string substitution of `GenEntry::evaluate` (rec_rules.rs:288-295):
replace every `{name}` token by the resolved binding, folding over the resolved
bindings. -/
def substBindings (ev : List (String × String)) (s : String) : String :=
  ev.foldl (fun temp p => strReplace temp ("\x7b" ++ p.1 ++ "\x7d") p.2) s

mutual
/-- `template_deep` (rec_rules.rs:136-148) applied to the binding substitution:
walk the document, rewriting every string leaf (recursively through objects
and arrays). -/
def Json.interp (ev : List (String × String)) : Json → Json
  | .null => .null
  | .jbool b => .jbool b
  | .num q => .num q
  | .str s => .str (substBindings ev s)
  | .arr l => .arr (Json.interpList ev l)
  | .obj o => .obj (Json.interpFields ev o)

/-- `template_deep` over the elements of an array. -/
def Json.interpList (ev : List (String × String)) : List Json → List Json
  | [] => []
  | j :: t => Json.interp ev j :: Json.interpList ev t

/-- `template_deep` over the fields of an object. -/
def Json.interpFields (ev : List (String × String)) :
    List (String × Json) → List (String × Json)
  | [] => []
  | p :: t => (p.1, Json.interp ev p.2) :: Json.interpFields ev t
end

/-- The `values.iter().map(..).collect::<Result<..>>` step of
`GenEntry::evaluate` (rec_rules.rs:271-285): resolve every binding to a
string, failing on the first evaluation error. -/
def evalValues (tx : BankTx) :
    List (String × Arg) → Except String (List (String × String))
  | [] => .ok []
  | p :: rest =>
    match p.2 tx with
    | .error _ => .error "Error evaluating expression"
    | .ok v =>
      match evalValues tx rest with
      | .error e => .error e
      | .ok vs => .ok ((p.1, v) :: vs)

/-- `GenEntry::evaluate` (rec_rules.rs:268-298): resolve the value bindings and
interpolate them into the template. -/
def GenEntry.evaluate (ge : GenEntry) :
    Except String (List (String × String) × Json) :=
  match evalValues ge.tx ge.values with
  | .error e => .error e
  | .ok evaled => .ok (evaled, Json.interp evaled (Json.obj ge.template))

/-- The default id of `GenEntry::generate` (rec_rules.rs:209-212):
`{date}-{absolute amount as f64}` (the `Decimal → f64` conversion is exact on
the money values in scope; on failure the source falls back to `0.0`, which the
exact model never needs). -/
def defaultId (tx : BankTx) : String :=
  tx.date.toIso ++ "-" ++ ratToDecimalString tx.amount.abs_amount

/-- One `if templated.get(k).is_none() { templated.insert(k, v) }` statement
of `GenEntry::generate` (rec_rules.rs:194-265).  `generate` below embeds the
source up to the final conversion of the filled document into a typed
`Entry`: fill in `id`, `date` and `memo` when absent; when `type` is absent
default it to a payment type, overwrite `amount` with the transaction's
absolute magnitude (the source inserts over any existing key), and default
`account` from a `bank_account` binding.  The final `serde_json::from_value` /
`raw::Entry → Entry` validation is the external entry-construction
collaborator (spec §6 treats it as a black box); the claims below are about
this generated entry document. -/
def fillDefault (t : List (String × Json)) (k : String) (v : Json) :
    List (String × Json) :=
  if (alGet t k).isNone then alInsert t k v else t

/-- `GenEntry::generate`, continued from the comment on `fillDefault` above. -/
def GenEntry.generate (ge : GenEntry) :
    Except String (List (String × Json)) :=
  match ge.evaluate with
  | .error e => .error e
  | .ok (evaled, templated) =>
    match templated with
    | .obj t0 =>
      let t1 := fillDefault t0 "id"
        (.str ((alGet evaled "id").getD (defaultId ge.tx)))
      let t2 := fillDefault t1 "date"
        (.str ((alGet evaled "date").getD (Date.toIso ge.tx.date)))
      let t3 := fillDefault t2 "memo"
        (.str ((alGet evaled "memo").getD ge.tx.memo))
      let t4 :=
        if (alGet t3 "type").isNone then
          let t4a := alInsert t3 "type"
            (.str (match ge.tx.amount with
              | .Credit _ => "Payment Received"
              | .Debit _ => "Payment Sent"))
          let t4b := alInsert t4a "amount" (.num ge.tx.amount.abs_amount)
          if (alGet t4b "account").isNone then
            match alGet evaled "bank_account" with
            | some ba => alInsert t4b "account" (.str ba)
            | none => t4b
          else t4b
        else t3
      .ok t4
    | _ => .error "template not an object"

/-- `struct JournalEntry` (src/src/entry/journal.rs:133-139); the `lines`
field carries the already-validated `JournalLines` as a plain list. -/
structure JournalEntry where
  ref : String
  date : Date
  memo : Option String
  lines : List JournalLine

/-- `GenEntry::match_entry` (rec_rules.rs:303-329): resolve the bindings, then
match on exact date and, when a `bank_account` binding is present, reject the
entry iff some line on that account differs from the transaction's inverted
amount; without a `bank_account` binding nothing matches. -/
def GenEntry.match_entry (ge : GenEntry) (entry : JournalEntry) :
    Except String Bool :=
  match ge.evaluate with
  | .error e => .error e
  | .ok (evaled, _templated) =>
    if ge.tx.date ≠ entry.date then .ok false
    else
      match alGet evaled "bank_account" with
      | some bank_account =>
        if entry.lines.any (fun line =>
            line.account == bank_account
              && line.amount != ge.tx.amount.invert)
        then .ok false
        else .ok true
      | none => .ok false

/-! ## The transaction pool (src/src/bank_txs/mod.rs:114-188) -/

/-- `struct BankTxs { txs, rules }` (mod.rs:114-118). -/
structure BankTxs where
  txs : List BankTx
  rules : RecRules

/-- Modelled from the spec: the per-transaction matcher used by the
reconciler's loop (mod.rs:161-172 calls a count-returning `match_entry` whose
definition is not under `src`; the `rec_rules.rs` under `src` carries only the
boolean `GenEntry::match_entry`).  Per spec §4.7, a transaction whose
`apply(rules).match_entry(entry)` succeeds with `true` is a hit, and a hit's
count is the entry's required line count for the matched bank account: the
number of entry lines whose account equals the `bank_account` binding.  As in
the source's `unwrap_or(None)`, any error is treated as no match. -/
def matchEntryCount (rules : RecRules) (entry : JournalEntry) (tx : BankTx) :
    Option Nat :=
  match RecRules.apply rules tx with
  | .error _ => none
  | .ok ge =>
    match ge.evaluate, ge.match_entry entry with
    | .ok (evaled, _), .ok true =>
      match alGet evaled "bank_account" with
      | some ba => some (entry.lines.countP (fun line => line.account == ba))
      | none => none
    | _, _ => none

/-- `Vec::swap_remove(i)`: overwrite index `i` with the last element and pop
the last element. -/
def swapRemove {α : Type} (l : List α) (i : Nat) : List α :=
  match l.getLast? with
  | none => []
  | some last => (l.set i last).dropLast

/-- The `enumerate().find_map(..)` scan of `match_and_rm` (mod.rs:161-172):
index and count of the first transaction the matcher accepts. -/
def findMatchIdx {α : Type} (f : α → Option Nat) : List α → Option (Nat × Nat)
  | [] => none
  | tx :: rest =>
    match f tx with
    | some r => some (0, r)
    | none => (findMatchIdx f rest).map (fun p => (p.1 + 1, p.2))

/-- The `while let` loop of `match_and_rm` (mod.rs:161-177): find the first
matching transaction; while fewer transactions have been removed than the
matched count, `swap_remove` it into the removed list and rescan.  Each
iteration removes one pool element, so `pool length + 1` fuel runs the loop to
its exit condition. -/
def matchRmGo {α : Type} [Inhabited α] (f : α → Option Nat) :
    Nat → List α → List α → List α × List α
  | 0, txs, removed => (removed, txs)
  | fuel + 1, txs, removed =>
    match findMatchIdx f txs with
    | none => (removed, txs)
    | some (i, r) =>
      if removed.length < r then
        matchRmGo f fuel (swapRemove txs i) (removed ++ [txs.getD i default])
      else (removed, txs)

/-- `BankTxs::match_and_rm` (mod.rs:154-178): returns the removed transactions
and the pool left behind. -/
def BankTxs.match_and_rm (b : BankTxs) (entry : JournalEntry) :
    List BankTx × BankTxs :=
  if b.txs.isEmpty then ([], b)
  else
    let res := matchRmGo (matchEntryCount b.rules entry)
      (b.txs.length + 1) b.txs []
    (res.1, { b with txs := res.2 })

/-- One transaction's generation inside `BankTxs::generate_entries`
(mod.rs:185): `self.rules.apply(tx)?.generate()?`. -/
def genOne (rules : RecRules) (tx : BankTx) :
    Except String (List (String × Json)) :=
  match RecRules.apply rules tx with
  | .error e => .error e
  | .ok ge => ge.generate

/-- Rust's `collect::<Result<Vec<_>, _>>`: collect every success in order, or
stop at the first error. -/
def collectResults {α β : Type} (g : α → Except String β) :
    List α → Except String (List β)
  | [] => .ok []
  | a :: t =>
    match g a with
    | .error e => .error e
    | .ok b =>
      match collectResults g t with
      | .error e => .error e
      | .ok bs => .ok (b :: bs)

/-- `BankTxs::generate_entries` (mod.rs:181-187). -/
def BankTxs.generate_entries (b : BankTxs) :
    Except String (List (List (String × Json))) :=
  collectResults (genOne b.rules) b.txs

/-! ## Association-list and interpolation lemmas -/

theorem alGet_alInsert_self {α : Type} (l : List (String × α)) (k : String)
    (v : α) : alGet (alInsert l k v) k = some v := by
  induction l with
  | nil => simp [alInsert, alGet]
  | cons p rest ih =>
    by_cases h : p.1 == k
    · simp [alInsert, h, alGet]
    · simp [alInsert, h, alGet, ih]

theorem alGet_alInsert_other {α : Type} (l : List (String × α)) (k : String)
    (v : α) (k2 : String) (h : k2 ≠ k) :
    alGet (alInsert l k v) k2 = alGet l k2 := by
  induction l with
  | nil =>
    simp only [alInsert, alGet, beq_iff_eq]
    rw [if_neg (Ne.symm h)]
  | cons p rest ih =>
    by_cases hp : p.1 == k
    · have hpk : p.1 = k := by simpa using hp
      simp only [alInsert, hp, if_true, alGet, beq_iff_eq, hpk]
      rw [if_neg (Ne.symm h), if_neg (Ne.symm h)]
    · simp only [alInsert, hp, if_false, alGet, Bool.false_eq_true, ih]

theorem alGet_interpFields (ev : List (String × String))
    (o : List (String × Json)) (k : String) :
    alGet (Json.interpFields ev o) k = (alGet o k).map (Json.interp ev) := by
  induction o with
  | nil => simp [Json.interpFields, alGet]
  | cons p t ih =>
    by_cases h : p.1 == k
    · simp [Json.interpFields, alGet, h]
    · simp [Json.interpFields, alGet, h, ih]

theorem interp_obj (ev : List (String × String)) (o : List (String × Json)) :
    Json.interp ev (Json.obj o) = Json.obj (Json.interpFields ev o) := by
  simp [Json.interp]

/-! ## C2 — the rule loop's template short-circuit -/

/-- The transaction of the `generate_payment_entries` scenario (mod.rs tests):
its memo does not match the first templated rule. -/
def c2Tx : BankTx :=
  { date := ⟨2025, 3, 8⟩, account := "XX00",
    amount := JournalAmount.Debit 61, memo := "ACME ElecSvc" }

/-- A rule whose predicate is false for `c2Tx` but which carries a template. -/
def c2Rule1 : RecRule :=
  { rule := fun tx => .ok (tx.memo == "POS deposit"),
    values := [],
    template := [("party", Json.str "ACME POS")] }

/-- A later rule whose predicate is true, carrying a template. -/
def c2Rule2 : RecRule :=
  { rule := fun _ => .ok true,
    values := [],
    template := [("memo", Json.str "Electric payment")] }

/-- C2: the source's rule loop (rec_rules.rs:104-112) tests the CURRENT rule's
own template and therefore stops at the first template-carrying rule even when
that rule's predicate is false: with `c2Rule1` (predicate false, non-empty
template) before `c2Rule2` (predicate true, non-empty template), `apply`
returns the untouched generating entry — nothing merged and `c2Rule2` never
consulted — whereas the spec's accumulated-template stop condition (merged
only after a predicate hit) continues past `c2Rule1` and merges `c2Rule2`'s
template, as the repository's own `generate_payment_entries` and
`generate_journal_entries` tests expect. -/
theorem recRules_apply_template_short_circuit_bug :
    RecRules.apply [c2Rule1, c2Rule2] c2Tx = .ok (GenEntry.new c2Tx)
    ∧ (GenEntry.new c2Tx).template = []
    ∧ RecRules.applyPerSpec [c2Rule1, c2Rule2] c2Tx =
        .ok { tx := c2Tx, values := [],
              template := [("memo", Json.str "Electric payment")] } :=
  ⟨rfl, rfl, rfl⟩

/-! ## C4 — `GenEntry::match_entry` -/

/-- C4: with resolved bindings, `match_entry` is false on a date mismatch;
with a `bank_account` binding it is false exactly when some entry line on
that account differs from the transaction's inverted amount and true
otherwise; and without a `bank_account` binding it is always false. -/
theorem match_entry_characterization
    (ge : GenEntry) (entry : JournalEntry)
    (ev : List (String × String)) (tj : Json)
    (heval : ge.evaluate = .ok (ev, tj)) :
    (ge.tx.date ≠ entry.date → ge.match_entry entry = .ok false)
    ∧ (ge.tx.date = entry.date →
        (∀ ba, alGet ev "bank_account" = some ba →
          ((∃ line ∈ entry.lines, line.account = ba ∧
              line.amount ≠ ge.tx.amount.invert) →
            ge.match_entry entry = .ok false)
          ∧ ((∀ line ∈ entry.lines, line.account = ba →
              line.amount = ge.tx.amount.invert) →
            ge.match_entry entry = .ok true))
        ∧ (alGet ev "bank_account" = none →
            ge.match_entry entry = .ok false)) := by
  have hme : ge.match_entry entry =
      (if ge.tx.date ≠ entry.date then .ok false
       else
         match alGet ev "bank_account" with
         | some bank_account =>
           if entry.lines.any (fun line =>
               line.account == bank_account
                 && line.amount != ge.tx.amount.invert)
           then .ok false
           else .ok true
         | none => .ok false) := by
    unfold GenEntry.match_entry
    rw [heval]
  constructor
  · intro hne
    rw [hme, if_pos hne]
  · intro hdeq
    have hnne : ¬ ge.tx.date ≠ entry.date := fun hc => hc hdeq
    constructor
    · intro ba hba
      constructor
      · rintro ⟨line, hmem, hacc, hamt⟩
        rw [hme, if_neg hnne, hba]
        show (if entry.lines.any _ then Except.ok false else Except.ok true) =
          Except.ok false
        rw [if_pos]
        rw [List.any_eq_true]
        exact ⟨line, hmem, by simp [hacc, hamt]⟩
      · intro hall
        rw [hme, if_neg hnne, hba]
        show (if entry.lines.any _ then Except.ok false else Except.ok true) =
          Except.ok true
        rw [if_neg]
        rw [List.any_eq_true]
        rintro ⟨line, hmem, hcond⟩
        simp only [Bool.and_eq_true, beq_iff_eq, bne_iff_ne, ne_eq] at hcond
        exact hcond.2 (hall line hmem hcond.1)
    · intro hnone
      rw [hme, if_neg hnne, hnone]

/-- The transaction of the C4 witness. -/
def c4Tx : BankTx :=
  { date := ⟨2020, 1, 2⟩, account := "XX00",
    amount := JournalAmount.Credit 7, memo := "t" }

/-- The generating entry of the C4 witness (a `bank_account` binding only). -/
def c4Ge : GenEntry :=
  { tx := c4Tx,
    values := [("bank_account", fun _ => .ok "Bank")],
    template := [] }

/-- The recorded entry of the C4 witness. -/
def c4Entry : JournalEntry :=
  { ref := "r", date := ⟨2020, 1, 2⟩, memo := none,
    lines := [⟨"Bank", JournalAmount.Debit 7⟩,
              ⟨"Owner", JournalAmount.Credit 7⟩] }

/-- Closed instance of C4: same date, matching bank-account line, match. -/
theorem match_entry_characterization_witness :
    c4Ge.evaluate = .ok ([("bank_account", "Bank")], Json.obj [])
    ∧ c4Ge.match_entry c4Entry = .ok true := by
  have heval : c4Ge.evaluate = .ok ([("bank_account", "Bank")], Json.obj []) := by
    simp [GenEntry.evaluate, evalValues, c4Ge, c4Tx, Json.interp,
      Json.interpFields]
  refine ⟨heval, ?_⟩
  refine ((((match_entry_characterization c4Ge c4Entry _ _ heval).2
    rfl).1 "Bank" rfl).2) ?_
  intro line hmem hacc
  simp only [c4Entry, List.mem_cons, List.mem_singleton] at hmem
  rcases hmem with h | h | h
  · subst h
    rfl
  · subst h
    exact absurd hacc (by decide)
  · cases h

/-! ## C5 / C10 — the defaults of `GenEntry::generate` -/

theorem alGet_fillDefault_other (t : List (String × Json)) (k : String)
    (v : Json) (k2 : String) (h : k2 ≠ k) :
    alGet (fillDefault t k v) k2 = alGet t k2 := by
  unfold fillDefault
  split
  · exact alGet_alInsert_other t k v k2 h
  · rfl

theorem alGet_fillDefault_isSome (t : List (String × Json)) (k : String)
    (v : Json) : (alGet (fillDefault t k v) k).isSome = true := by
  unfold fillDefault
  split <;> rename_i hc
  · rw [alGet_alInsert_self]
    rfl
  · cases halk : alGet t k with
    | none => rw [halk] at hc; exact absurd rfl hc
    | some j => rfl

/-- C5: when the accumulated template does not set `type`, the generated
document's `amount` is the transaction's absolute magnitude — the defaulted
amount cannot be overridden by bindings or template. -/
theorem generate_default_amount_locked
    (ge : GenEntry) (d : List (String × Json))
    (hgen : ge.generate = .ok d)
    (htype : alGet ge.template "type" = none) :
    alGet d "amount" = some (Json.num ge.tx.amount.abs_amount) := by
  cases hvv : evalValues ge.tx ge.values with
  | error e =>
    simp only [GenEntry.generate, GenEntry.evaluate, hvv] at hgen
    exact (Except.noConfusion hgen)
  | ok ev =>
    simp only [GenEntry.generate, GenEntry.evaluate, hvv, interp_obj] at hgen
    rw [Except.ok.injEq] at hgen
    subst hgen
    have hty3 : alGet (fillDefault (fillDefault (fillDefault
        (Json.interpFields ev ge.template) "id"
          (Json.str ((alGet ev "id").getD (defaultId ge.tx)))) "date"
          (Json.str ((alGet ev "date").getD (Date.toIso ge.tx.date)))) "memo"
          (Json.str ((alGet ev "memo").getD ge.tx.memo))) "type" = none := by
      rw [alGet_fillDefault_other _ _ _ _ (by decide),
        alGet_fillDefault_other _ _ _ _ (by decide),
        alGet_fillDefault_other _ _ _ _ (by decide),
        alGet_interpFields, htype]
      rfl
    rw [hty3]
    simp only [Option.isNone_none, if_true]
    split
    · cases hba : alGet ev "bank_account" with
      | none =>
        simp only [hba]
        exact alGet_alInsert_self _ _ _
      | some ba =>
        simp only [hba]
        rw [alGet_alInsert_other _ _ _ _ (by decide)]
        exact alGet_alInsert_self _ _ _
    · exact alGet_alInsert_self _ _ _

/-- The transaction of the C5/C10 witnesses. -/
def c5Tx : BankTx :=
  { date := ⟨2025, 3, 6⟩, account := "XX00",
    amount := JournalAmount.Debit 5, memo := "Electrical" }

/-- The generating entry of the C5 witness: a template that sets `amount` to
an unrelated literal but no `type`. -/
def c5Ge : GenEntry :=
  { tx := c5Tx, values := [],
    template := [("amount", Json.str "junk")] }

/-- The document generated from `c5Ge`. -/
def c5Doc : List (String × Json) :=
  [("amount", Json.num 5),
   ("id", Json.str "2025-03-06-5"),
   ("date", Json.str "2025-03-06"),
   ("memo", Json.str "Electrical"),
   ("type", Json.str "Payment Sent")]

/-- Closed instance of C5: the template's `amount: junk` is overwritten by the
transaction magnitude. -/
theorem generate_default_amount_locked_witness :
    c5Ge.generate = .ok c5Doc
    ∧ alGet c5Doc "amount" = some (Json.num c5Ge.tx.amount.abs_amount) := by
  have heval : c5Ge.evaluate =
      .ok ([], Json.obj [("amount", Json.str "junk")]) := by
    simp [GenEntry.evaluate, evalValues, c5Ge, Json.interp, Json.interpFields,
      substBindings]
  have hgen : c5Ge.generate = .ok c5Doc := by
    unfold GenEntry.generate
    rw [heval]
    rfl
  exact ⟨hgen, generate_default_amount_locked c5Ge c5Doc hgen rfl⟩

/-- C10: when the resolved template already carries `type`, `generate` inserts
no default `amount` and no default `account` — those keys appear in the
generated document exactly when the template produced them — while the `id`,
`date` and `memo` defaults are still filled in. -/
theorem generate_type_present_frame
    (ge : GenEntry) (d : List (String × Json))
    (hgen : ge.generate = .ok d)
    (htype : (alGet ge.template "type").isSome = true) :
    (alGet d "amount").isSome = (alGet ge.template "amount").isSome
    ∧ (alGet d "account").isSome = (alGet ge.template "account").isSome
    ∧ (alGet d "id").isSome = true
    ∧ (alGet d "date").isSome = true
    ∧ (alGet d "memo").isSome = true := by
  cases hvv : evalValues ge.tx ge.values with
  | error e =>
    simp only [GenEntry.generate, GenEntry.evaluate, hvv] at hgen
    exact (Except.noConfusion hgen)
  | ok ev =>
    simp only [GenEntry.generate, GenEntry.evaluate, hvv, interp_obj] at hgen
    rw [Except.ok.injEq] at hgen
    subst hgen
    obtain ⟨tv, htv⟩ : ∃ tv, alGet ge.template "type" = some tv := by
      cases ht : alGet ge.template "type" with
      | none => rw [ht] at htype; cases htype
      | some tv => exact ⟨tv, rfl⟩
    have hty3 : alGet (fillDefault (fillDefault (fillDefault
        (Json.interpFields ev ge.template) "id"
          (Json.str ((alGet ev "id").getD (defaultId ge.tx)))) "date"
          (Json.str ((alGet ev "date").getD (Date.toIso ge.tx.date)))) "memo"
          (Json.str ((alGet ev "memo").getD ge.tx.memo))) "type" =
        some (Json.interp ev tv) := by
      rw [alGet_fillDefault_other _ _ _ _ (by decide),
        alGet_fillDefault_other _ _ _ _ (by decide),
        alGet_fillDefault_other _ _ _ _ (by decide),
        alGet_interpFields, htv]
      rfl
    rw [hty3]
    simp only [Option.isNone_some, Bool.false_eq_true, if_false, reduceIte]
    refine ⟨?_, ?_, ?_, ?_, ?_⟩
    · rw [alGet_fillDefault_other _ _ _ _ (by decide),
        alGet_fillDefault_other _ _ _ _ (by decide),
        alGet_fillDefault_other _ _ _ _ (by decide),
        alGet_interpFields]
      cases alGet ge.template "amount" <;> rfl
    · rw [alGet_fillDefault_other _ _ _ _ (by decide),
        alGet_fillDefault_other _ _ _ _ (by decide),
        alGet_fillDefault_other _ _ _ _ (by decide),
        alGet_interpFields]
      cases alGet ge.template "account" <;> rfl
    · rw [alGet_fillDefault_other _ _ _ _ (by decide),
        alGet_fillDefault_other _ _ _ _ (by decide)]
      exact alGet_fillDefault_isSome _ _ _
    · rw [alGet_fillDefault_other _ _ _ _ (by decide)]
      exact alGet_fillDefault_isSome _ _ _
    · exact alGet_fillDefault_isSome _ _ _

/-- The generating entry of the C10 witness: a template that sets `type` and
`amount` but no `account`. -/
def c10Ge : GenEntry :=
  { tx := c5Tx, values := [],
    template := [("type", Json.str "Journal Entry"),
                 ("amount", Json.str "junk")] }

/-- The document generated from `c10Ge`. -/
def c10Doc : List (String × Json) :=
  [("type", Json.str "Journal Entry"),
   ("amount", Json.str "junk"),
   ("id", Json.str "2025-03-06-5"),
   ("date", Json.str "2025-03-06"),
   ("memo", Json.str "Electrical")]

/-- Closed instance of C10. -/
theorem generate_type_present_frame_witness :
    c10Ge.generate = .ok c10Doc
    ∧ (alGet c10Doc "amount").isSome = (alGet c10Ge.template "amount").isSome
    ∧ (alGet c10Doc "account").isSome = (alGet c10Ge.template "account").isSome
    ∧ (alGet c10Doc "id").isSome = true
    ∧ (alGet c10Doc "date").isSome = true
    ∧ (alGet c10Doc "memo").isSome = true := by
  have heval : c10Ge.evaluate =
      .ok ([], Json.obj [("type", Json.str "Journal Entry"),
                         ("amount", Json.str "junk")]) := by
    simp [GenEntry.evaluate, evalValues, c10Ge, Json.interp, Json.interpFields,
      substBindings]
  have hgen : c10Ge.generate = .ok c10Doc := by
    unfold GenEntry.generate
    rw [heval]
    rfl
  exact ⟨hgen, generate_type_present_frame c10Ge c10Doc hgen rfl⟩

/-! ## C6 — collect-or-fail generation -/

theorem collectResults_ok_iff {α β : Type} (g : α → Except String β)
    (l : List α) (es : List β) :
    collectResults g l = .ok es ↔
      List.Forall₂ (fun a b => g a = .ok b) l es := by
  induction l generalizing es with
  | nil =>
    simp only [collectResults, List.forall₂_nil_left_iff]
    constructor
    · intro h
      injection h with h
      exact h.symm
    · intro h
      subst h
      rfl
  | cons a t ih =>
    rw [List.forall₂_cons_left_iff]
    cases hga : g a with
    | error e =>
      simp only [collectResults, hga]
      constructor
      · intro h
        exact (Except.noConfusion h)
      · rintro ⟨b, l2, hab, _, _⟩
        exact (Except.noConfusion hab)
    | ok b0 =>
      simp only [collectResults, hga]
      cases hct : collectResults g t with
      | error e =>
        constructor
        · intro h
          exact (Except.noConfusion h)
        · rintro ⟨b, l2, _, hrest, _⟩
          have hok := (ih l2).mpr hrest
          rw [hct] at hok
          exact (Except.noConfusion hok)
      | ok bs =>
        constructor
        · intro h
          injection h with h
          exact ⟨b0, bs, rfl, (ih bs).mp hct, h.symm⟩
        · rintro ⟨b, l2, hab, hrest, hes⟩
          injection hab with hab
          have hok := (ih l2).mpr hrest
          rw [hct] at hok
          injection hok with hok
          subst hes
          rw [hab, hok]

theorem collectResults_error_iff {α β : Type} (g : α → Except String β)
    (l : List α) (msg : String) :
    collectResults g l = .error msg ↔
      ∃ pre a post, l = pre ++ a :: post
        ∧ (∀ x ∈ pre, ∃ b, g x = .ok b)
        ∧ g a = .error msg := by
  induction l with
  | nil =>
    simp only [collectResults]
    constructor
    · intro h
      exact (Except.noConfusion h)
    · rintro ⟨pre, a, post, hl, _, _⟩
      exact absurd hl (by simp)
  | cons c t ih =>
    cases hgc : g c with
    | error e =>
      simp only [collectResults, hgc]
      constructor
      · intro h
        injection h with h
        refine ⟨[], c, t, rfl, by simp, ?_⟩
        rw [hgc, h]
      · rintro ⟨pre, a, post, hl, hpre, ha⟩
        cases pre with
        | nil =>
          simp only [List.nil_append, List.cons.injEq] at hl
          obtain ⟨h1, _⟩ := hl
          subst h1
          rw [hgc] at ha
          injection ha with ha
          rw [ha]
        | cons p pre2 =>
          simp only [List.cons_append, List.cons.injEq] at hl
          obtain ⟨h1, _⟩ := hl
          subst h1
          obtain ⟨b, hb⟩ := hpre c (by simp)
          rw [hgc] at hb
          exact (Except.noConfusion hb)
    | ok b0 =>
      cases hct : collectResults g t with
      | error e =>
        simp only [collectResults, hgc, hct]
        constructor
        · intro h
          injection h with h
          obtain ⟨pre, a, post, hl, hpre, ha⟩ := ih.mp (by rw [hct, h])
          refine ⟨c :: pre, a, post, by rw [hl]; rfl, ?_, ha⟩
          intro x hx
          rcases List.mem_cons.mp hx with h1 | h1
          · subst h1
            exact ⟨b0, hgc⟩
          · exact hpre x h1
        · rintro ⟨pre, a, post, hl, hpre, ha⟩
          cases pre with
          | nil =>
            simp only [List.nil_append, List.cons.injEq] at hl
            obtain ⟨h1, _⟩ := hl
            subst h1
            rw [hgc] at ha
            exact (Except.noConfusion ha)
          | cons p pre2 =>
            simp only [List.cons_append, List.cons.injEq] at hl
            obtain ⟨h1, h2⟩ := hl
            subst h1
            have herr : collectResults g t = .error msg :=
              ih.mpr ⟨pre2, a, post, h2,
                fun x hx => hpre x (List.mem_cons.mpr (Or.inr hx)), ha⟩
            rw [hct] at herr
            injection herr with herr
            rw [herr]
      | ok bs =>
        simp only [collectResults, hgc, hct]
        constructor
        · intro h
          exact (Except.noConfusion h)
        · rintro ⟨pre, a, post, hl, hpre, ha⟩
          cases pre with
          | nil =>
            simp only [List.nil_append, List.cons.injEq] at hl
            obtain ⟨h1, _⟩ := hl
            subst h1
            rw [hgc] at ha
            exact (Except.noConfusion ha)
          | cons p pre2 =>
            simp only [List.cons_append, List.cons.injEq] at hl
            obtain ⟨h1, h2⟩ := hl
            subst h1
            have herr : collectResults g t = .error msg :=
              ih.mpr ⟨pre2, a, post, h2,
                fun x hx => hpre x (List.mem_cons.mpr (Or.inr hx)), ha⟩
            rw [hct] at herr
            exact (Except.noConfusion herr)

/-- C6: `generate_entries` generates one entry per pooled transaction in the
original order and succeeds exactly when every per-transaction generation
succeeds; otherwise it aborts with the error of the first failing transaction
(every transaction before it generates successfully) and returns no partial
list. -/
theorem generate_entries_collect_or_fail (b : BankTxs) :
    (∀ es, b.generate_entries = .ok es ↔
      List.Forall₂ (fun tx d => genOne b.rules tx = .ok d) b.txs es)
    ∧ (∀ msg, b.generate_entries = .error msg ↔
      ∃ pre tx post, b.txs = pre ++ tx :: post
        ∧ (∀ t ∈ pre, ∃ d, genOne b.rules t = .ok d)
        ∧ genOne b.rules tx = .error msg) :=
  ⟨fun es => collectResults_ok_iff (genOne b.rules) b.txs es,
   fun msg => collectResults_error_iff (genOne b.rules) b.txs msg⟩

/-! ## C9 — the matching loop conserves the pool -/

theorem findMatchIdx_lt {α : Type} (f : α → Option Nat) :
    ∀ (l : List α) (i r : Nat), findMatchIdx f l = some (i, r) → i < l.length := by
  intro l
  induction l with
  | nil => intro i r h; cases h
  | cons a t ih =>
    intro i r h
    unfold findMatchIdx at h
    cases hfa : f a with
    | some r0 =>
      rw [hfa] at h
      injection h with h
      injection h with h1 _
      subst h1
      simp
    | none =>
      rw [hfa] at h
      cases hrec : findMatchIdx f t with
      | none => rw [hrec] at h; cases h
      | some p =>
        rw [hrec] at h
        injection h with h
        have := ih p.1 p.2 (by rw [hrec])
        simp only [Option.map_some] at h
        injection h with h1 _
        subst h1
        simpa using Nat.succ_lt_succ this

theorem cons_getD_eraseIdx_perm {α : Type} [Inhabited α] :
    ∀ (l : List α) (i : Nat), i < l.length →
      (l.getD i default :: l.eraseIdx i).Perm l
  | [], i, h => absurd h (by simp)
  | a :: t, 0, _ => by simp
  | a :: t, i + 1, h => by
    have hi : i < t.length := by simpa using h
    have ih := cons_getD_eraseIdx_perm t i hi
    simp only [List.getD_cons_succ, List.eraseIdx_cons_succ]
    exact (List.Perm.swap a (t.getD i default) (t.eraseIdx i)).trans (ih.cons a)

theorem swapRemove_perm {α : Type} [Inhabited α] :
    ∀ (l : List α) (i : Nat), i < l.length →
      (swapRemove l i).Perm (l.eraseIdx i)
  | [], i, h => absurd h (by simp)
  | [a], 0, _ => by simp [swapRemove, List.getLast?]
  | [a], i + 1, h => absurd h (by simp)
  | a :: b :: t, 0, _ => by
    rw [swapRemove, List.getLast?_cons_cons,
      List.getLast?_eq_getLast_of_ne_nil (List.cons_ne_nil b t)]
    simp only [List.set_cons_zero, List.dropLast_cons₂, List.eraseIdx_cons_zero]
    conv_rhs => rw [← List.dropLast_append_getLast (List.cons_ne_nil b t)]
    exact (List.perm_append_singleton _ _).symm
  | a :: b :: t, i + 1, h => by
    have hi : i < (b :: t).length := by simpa using h
    have ih := swapRemove_perm (b :: t) i hi
    rw [swapRemove, List.getLast?_cons_cons,
      List.getLast?_eq_getLast_of_ne_nil (List.cons_ne_nil b t)]
    rw [swapRemove, List.getLast?_eq_getLast_of_ne_nil (List.cons_ne_nil b t)]
      at ih
    simp only [List.set_cons_succ, List.eraseIdx_cons_succ]
    cases i with
    | zero =>
      simp only [List.set_cons_zero, List.dropLast_cons₂] at ih ⊢
      exact ih.cons a
    | succ i2 =>
      simp only [List.set_cons_succ, List.dropLast_cons₂] at ih ⊢
      exact ih.cons a

theorem matchRmGo_succ_none {α : Type} [Inhabited α] (f : α → Option Nat)
    (n : Nat) (txs removed : List α)
    (h : findMatchIdx f txs = none) :
    matchRmGo f (n + 1) txs removed = (removed, txs) := by
  unfold matchRmGo
  rw [h]

theorem matchRmGo_succ_some {α : Type} [Inhabited α] (f : α → Option Nat)
    (n : Nat) (txs removed : List α) (i r : Nat)
    (h : findMatchIdx f txs = some (i, r)) :
    matchRmGo f (n + 1) txs removed =
      if removed.length < r then
        matchRmGo f n (swapRemove txs i) (removed ++ [txs.getD i default])
      else (removed, txs) := by
  show (match findMatchIdx f txs with
    | none => (removed, txs)
    | some (i, r) =>
      if removed.length < r then
        matchRmGo f n (swapRemove txs i) (removed ++ [txs.getD i default])
      else (removed, txs)) = _
  rw [h]

theorem matchRmGo_perm {α : Type} [Inhabited α] (f : α → Option Nat) :
    ∀ (fuel : Nat) (txs removed : List α),
      ((matchRmGo f fuel txs removed).1
        ++ (matchRmGo f fuel txs removed).2).Perm (removed ++ txs) := by
  intro fuel
  induction fuel with
  | zero => intro txs removed; exact List.Perm.refl _
  | succ n ih =>
    intro txs removed
    cases hfind : findMatchIdx f txs with
    | none =>
      rw [matchRmGo_succ_none f n txs removed hfind]
    | some p =>
      obtain ⟨i, r⟩ := p
      rw [matchRmGo_succ_some f n txs removed i r hfind]
      by_cases hlen : removed.length < r
      · rw [if_pos hlen]
        have hi := findMatchIdx_lt f txs i r hfind
        have hsw : (txs.getD i default :: swapRemove txs i).Perm txs :=
          ((swapRemove_perm txs i hi).cons _).trans
            (cons_getD_eraseIdx_perm txs i hi)
        refine (ih (swapRemove txs i) (removed ++ [txs.getD i default])).trans ?_
        have hre : removed ++ [txs.getD i default] ++ swapRemove txs i
            = removed ++ (txs.getD i default :: swapRemove txs i) := by
          simp [List.append_assoc]
        rw [hre]
        exact hsw.append_left removed
      · rw [if_neg hlen]

/-- C9: `match_and_rm` conserves the pool as a multiset — the returned removed
transactions together with the remaining pool are a permutation of the
original pool (only a permutation: removal uses `swap_remove`). -/
theorem match_and_rm_pool_conservation (b : BankTxs) (entry : JournalEntry) :
    (((b.match_and_rm entry).1) ++ ((b.match_and_rm entry).2.txs)).Perm b.txs := by
  unfold BankTxs.match_and_rm
  by_cases hemp : b.txs.isEmpty
  · simp only [hemp, if_true, reduceIte]
    simp
  · simp only [hemp, if_false, Bool.false_eq_true, reduceIte]
    simpa using matchRmGo_perm (matchEntryCount b.rules entry)
      (b.txs.length + 1) b.txs []

/-! ## C3 — multiplicity-respecting matching -/

/-- The rule set of the `match_journal_entry_multiple_lines` scenario (the
repository's own test in mod.rs): map account `XX00` to `Bank`. -/
def c3Rules : RecRules :=
  [{ rule := fun tx => .ok (tx.account == "XX00"),
     values := [("bank_account", fun _ => .ok "Bank")],
     template := [] }]

/-- First pooled transaction: a 10000 deposit on 2020-01-02. -/
def c3T1 : BankTx :=
  { date := ⟨2020, 1, 2⟩, account := "XX00",
    amount := JournalAmount.Credit 10000, memo := "Transfer from 001" }

/-- Second pooled transaction: a 5000 deposit on the same date. -/
def c3T2 : BankTx :=
  { date := ⟨2020, 1, 2⟩, account := "XX00",
    amount := JournalAmount.Credit 5000, memo := "Transfer from 002" }

/-- Third, unrelated transaction (different date). -/
def c3T3 : BankTx :=
  { date := ⟨2020, 1, 3⟩, account := "XX00",
    amount := JournalAmount.Credit 1000, memo := "Transfer from 003" }

/-- The recorded entry with two debit lines on the bank account summing to the
two deposits. -/
def c3Entry : JournalEntry :=
  { ref := "e", date := ⟨2020, 1, 2⟩, memo := some "Initial Contribution",
    lines := [⟨"Bank", JournalAmount.Debit 10000⟩,
              ⟨"Bank", JournalAmount.Debit 5000⟩,
              ⟨"Owner Contributions", JournalAmount.Credit 15000⟩] }

/-- The pool of the scenario. -/
def c3Pool : BankTxs := { txs := [c3T1, c3T2, c3T3], rules := c3Rules }

/-- C3, evaluated at the claim's own scenario: under the matcher reconstructed
from the spec (§4.6's `match_entry` — the boolean matcher in the sources —
plus §4.7's required line count), `match_and_rm` removes NOTHING: the entry's
two `Bank` lines carry different amounts, so `match_entry` rejects both
deposits (its `any`-mismatch test fails an entry whose bank-account lines are
not all equal to the inverted transaction amount).  The claim — and the
repository's own test `match_journal_entry_multiple_lines` — expect exactly 2
removals with the unrelated third transaction left in the pool. -/
theorem match_and_rm_multiline_entry_bug :
    (c3Pool.match_and_rm c3Entry).1 = []
    ∧ (c3Pool.match_and_rm c3Entry).2.txs = [c3T1, c3T2, c3T3]
    ∧ matchEntryCount c3Rules c3Entry c3T1 = none
    ∧ c3Entry.lines.countP (fun line => line.account == "Bank") = 2 := by
  have h1 : matchEntryCount c3Rules c3Entry c3T1 = none := by
    simp +decide [matchEntryCount, RecRules.apply, recRulesApplyGo,
      RecRule.apply, GenEntry.new, GenEntry.evaluate, evalValues,
      GenEntry.match_entry, Json.interp, Json.interpFields, alGet, alExtend,
      alInsert, JournalAmount.invert, c3Rules, c3T1, c3Entry]
  have h2 : matchEntryCount c3Rules c3Entry c3T2 = none := by
    simp +decide [matchEntryCount, RecRules.apply, recRulesApplyGo,
      RecRule.apply, GenEntry.new, GenEntry.evaluate, evalValues,
      GenEntry.match_entry, Json.interp, Json.interpFields, alGet, alExtend,
      alInsert, JournalAmount.invert, c3Rules, c3T2, c3Entry]
  have h3 : matchEntryCount c3Rules c3Entry c3T3 = none := by
    simp +decide [matchEntryCount, RecRules.apply, recRulesApplyGo,
      RecRule.apply, GenEntry.new, GenEntry.evaluate, evalValues,
      GenEntry.match_entry, Json.interp, Json.interpFields, alGet, alExtend,
      alInsert, JournalAmount.invert, c3Rules, c3T3, c3Entry]
  have hfind : findMatchIdx (matchEntryCount c3Pool.rules c3Entry)
      c3Pool.txs = none := by
    show findMatchIdx (matchEntryCount c3Rules c3Entry) [c3T1, c3T2, c3T3]
      = none
    simp only [findMatchIdx, h1, h2, h3]
    rfl
  have hrm : c3Pool.match_and_rm c3Entry = ([], c3Pool) := by
    unfold BankTxs.match_and_rm
    rw [if_neg (by decide)]
    rw [matchRmGo_succ_none _ _ _ _ hfind]
  refine ⟨by rw [hrm], by rw [hrm]; rfl, h1, by decide⟩

end Accounts
